import Mathlib

/-!
Verification of the cost-management storage and currency-conversion layer.

The development shallowly embeds the Promise-based IndexedDB wrapper
(`public/idb.js`) and the `CurrencyService` class.  JavaScript numbers are
modelled as exact rationals (`ℚ`); JavaScript truthiness on a numeric field
is `≠ 0` (with `none` standing for a missing/`undefined` property), and on a
string field it is non-emptiness.  The store is the list of records in the
`expenses` object store, threaded explicitly; the external `fetch` effect is
modelled by an explicit outcome value.
-/

namespace Idb

/-- The error taxonomy of the storage layer: validation failure on
`addCost`, persistence failure, and exchange-rate fetch failure. -/
inductive IdbError where
  | ValidationError
  | StorageError
  | FetchError
deriving DecidableEq, Repr

/-- A calendar stamp standing for the JavaScript `Date` taken at insert
time (`now`): `year = getFullYear()`, `month = getMonth() + 1`,
`day = getDate()`. -/
structure DateParts where
  year : ℤ
  month : ℤ
  day : ℤ
deriving DecidableEq, Repr

/-- A stored cost record, exactly the `costItem` object built by
`window.idb.addCost`: the four user fields plus the stamped date and its
derived `year`/`month`/`day` projections. -/
structure CostRecord where
  sum : ℚ
  currency : String
  category : String
  description : String
  date : DateParts
  year : ℤ
  month : ℤ
  day : ℤ
deriving DecidableEq, Repr

/-- The caller-supplied argument of `addCost`.  Each property is an
`Option`: `none` models a missing (`undefined`) property. -/
structure CostInput where
  sum : Option ℚ
  currency : Option String
  category : Option String
  description : Option String
deriving DecidableEq, Repr

/-- The object `addCost` resolves with: strictly the four fields
`sum`, `currency`, `category`, `description` of the stored item. -/
structure AddedCost where
  sum : ℚ
  currency : String
  category : String
  description : String
deriving DecidableEq, Repr

/-- JavaScript truthiness of a numeric property: `undefined` and `0` are
falsy, every other number is truthy. -/
def numTruthy : Option ℚ → Bool
  | none => false
  | some q => decide (q ≠ 0)

/-- JavaScript truthiness of a string property: `undefined` and the empty
string are falsy. -/
def strTruthy : Option String → Bool
  | none => false
  | some s => decide (s ≠ "")

/-- `window.idb.addCost(cost)`: rejects with
`"Missing required properties"` when any of `cost.sum`, `cost.currency`,
`cost.category`, `cost.description` is falsy; otherwise stamps the current
date, derives `year`/`month`/`day`, appends the item to the store and
resolves with the four user fields.  The current date and the store are
explicit arguments; the new store is returned alongside the result. -/
def addCost (now : DateParts) (cost : CostInput) (store : List CostRecord) :
    Except IdbError (AddedCost × List CostRecord) :=
  if !numTruthy cost.sum || !strTruthy cost.currency
      || !strTruthy cost.category || !strTruthy cost.description then
    .error .ValidationError
  else
    let costItem : CostRecord :=
      { sum := cost.sum.getD 0
        currency := cost.currency.getD ""
        category := cost.category.getD ""
        description := cost.description.getD ""
        date := now
        year := now.year
        month := now.month
        day := now.day }
    .ok ({ sum := costItem.sum
           currency := costItem.currency
           category := costItem.category
           description := costItem.description },
         store ++ [costItem])

/-- The in-memory exchange-rate table `window.idb.exchangeRates`: a JSON
object mapping currency codes to numbers, modelled as an association
list. -/
def RateTable := List (String × ℚ)

instance : DecidableEq RateTable := by
  unfold RateTable
  infer_instance

/-- Property lookup `rates[currency]` on the rate object: `none` models
`undefined` (currency absent from the table). -/
def lookupRate : RateTable → String → Option ℚ
  | [], _ => none
  | (c, r) :: rest, key => if c = key then some r else lookupRate rest key

/-- JavaScript truthiness of a looked-up rate (`!fromRate` in the source):
`undefined` and `0` are falsy. -/
def rateTruthy : Option ℚ → Bool
  | none => false
  | some q => decide (q ≠ 0)

/-- The hard-coded fallback table of `getReport`:
`{ USD: 1, GBP: 1.8, EURO: 0.7, ILS: 3.4 }`. -/
def fallbackRates : RateTable :=
  [("USD", 1), ("GBP", 9/5), ("EURO", 7/10), ("ILS", 17/5)]

/-- The rate table `getReport` actually uses:
`window.idb.exchangeRates` when it has been set, else the fallback. -/
def ratesOf : Option RateTable → RateTable
  | none => fallbackRates
  | some rates => rates

/-- The `convert` helper inside `getReport`: if the amount is falsy or the
currencies coincide, the amount is returned unchanged; if either looked-up
rate is falsy (absent or zero), the amount is returned unchanged;
otherwise the amount is routed through the base unit:
`amount / rates[from] * rates[to]`. -/
def convert (rates : RateTable) (amount : ℚ)
    (fromCurrency toCurrency : String) : ℚ :=
  if amount = 0 ∨ fromCurrency = toCurrency then amount
  else
    let fromRate := lookupRate rates fromCurrency
    let toRate := lookupRate rates toCurrency
    if !rateTruthy fromRate || !rateTruthy toRate then amount
    else amount / fromRate.getD 0 * toRate.getD 0

/-- One entry of a report's cost list: the record's four user fields, the
`Date: { day }` projection, and the converted sum. -/
structure DetailedCost where
  sum : ℚ
  currency : String
  category : String
  description : String
  day : ℤ
  convertedSum : ℚ
deriving DecidableEq, Repr

/-- The `total` object of a report. -/
structure ReportTotal where
  currency : String
  total : ℚ
deriving DecidableEq, Repr

/-- The report object `getReport` resolves with. -/
structure Report where
  year : ℤ
  month : ℤ
  costs : List DetailedCost
  total : ReportTotal
deriving DecidableEq, Repr

/-- JavaScript `a || b` on numbers: `a` unless `a` is falsy. -/
def jsOr (a b : ℚ) : ℚ :=
  if a = 0 then b else a

/-- The per-record annotation performed by `getReport`'s `map`: keep the
four user fields, project the date to `{ day }`, and attach
`convertedSum = convert(sum, currency, target)`.  (In this embedding
`convert` always yields a number, so the
`typeof convertedSum === 'number'` guard always takes the first branch.) -/
def detailOf (rates : RateTable) (currency : String) (cost : CostRecord) :
    DetailedCost :=
  { sum := cost.sum
    currency := cost.currency
    category := cost.category
    description := cost.description
    day := cost.day
    convertedSum := convert rates cost.sum cost.currency currency }

/-- `window.idb.getReport(year, month, currency)`: reads every stored
record, filters to those whose `year` and `month` strictly equal the
arguments, annotates each with its converted sum, and totals
`convertedSum || 0` over the annotated list.  `exchangeRates` is the
current `window.idb.exchangeRates` (or `none` when never set). -/
def getReport (exchangeRates : Option RateTable) (store : List CostRecord)
    (year month : ℤ) (currency : String) : Report :=
  let monthCosts := store.filter (fun cost =>
    decide (cost.year = year ∧ cost.month = month))
  let rates := ratesOf exchangeRates
  let detailedCosts := monthCosts.map (detailOf rates currency)
  let total := detailedCosts.foldl (fun sum cost => sum + jsOr cost.convertedSum 0) 0
  { year := year
    month := month
    costs := detailedCosts
    total := { currency := currency, total := total } }

/-- `window.idb.clearAll()`: clears the `expenses` store. -/
def clearAll (_store : List CostRecord) : List CostRecord := []

/-- The outcome of the single `fetch(url)` performed by
`loadExchangeRates`: the response was not ok, the body failed to parse as
JSON, or a rate object was obtained. -/
inductive FetchOutcome where
  | notOk
  | badJson
  | ok (rates : RateTable)

/-- `window.idb.loadExchangeRates(url)`: on a non-ok response throws
`"Failed to fetch exchange rates"`; on a JSON parse failure the rejection
propagates; on success assigns the parsed object wholesale to
`window.idb.exchangeRates` and resolves with it.  The fetch effect is the
explicit `outcome` argument; the cached table before the call is
`current`, and the pair returned is (result, table after the call). -/
def loadExchangeRates (outcome : FetchOutcome) (current : Option RateTable) :
    Except IdbError RateTable × Option RateTable :=
  match outcome with
  | .notOk => (.error .FetchError, current)
  | .badJson => (.error .FetchError, current)
  | .ok rates => (.ok rates, some rates)

/-- `CurrencyService.convertCurrency(amount, from, to)` from
`currencyService.js`: identical currencies return the amount; otherwise
`amount / this.exchangeRates[from] * this.exchangeRates[to]` with no
fallback.  A missing rate makes the division or multiplication operate on
`undefined`, and a zero `from` rate divides by zero; both yield a
non-finite result (`NaN` or `±Infinity`), modelled as `none`. -/
def convertCurrency (exchangeRates : RateTable) (amount : ℚ)
    (fromCurrency toCurrency : String) : Option ℚ :=
  if fromCurrency = toCurrency then some amount
  else
    match lookupRate exchangeRates fromCurrency,
          lookupRate exchangeRates toCurrency with
    | some fromRate, some toRate =>
        if fromRate = 0 then none
        else some (amount / fromRate * toRate)
    | _, _ => none

end Idb

namespace Idb

/-- Helper: the `from === to` (or falsy-amount) guard of `convert`. -/
lemma convert_same (rates : RateTable) (amount : ℚ) (X : String) :
    convert rates amount X X = amount := by
  unfold convert
  simp

/-- Helper: under a non-falsy amount, distinct currencies and two
non-falsy looked-up rates, `convert` computes `amount / fromRate * toRate`. -/
lemma convert_routed (rates : RateTable) (amount : ℚ) (f t : String)
    (hft : f ≠ t) (ha : amount ≠ 0) (fr tr : ℚ)
    (hf : lookupRate rates f = some fr) (hf0 : fr ≠ 0)
    (ht : lookupRate rates t = some tr) (ht0 : tr ≠ 0) :
    convert rates amount f t = amount / fr * tr := by
  unfold convert
  rw [if_neg (by tauto)]
  simp [hf, ht, rateTruthy, hf0, ht0]

/-- C6: for every rate table, currency `X` and amount,
`convert(amount, X, X) = amount` — the identity law, with no rounding. -/
theorem convert_self (rates : RateTable) (amount : ℚ) (X : String) :
    convert rates amount X X = amount :=
  convert_same rates amount X

/-- Helper: the lenient fallback of `convert` — falsy amount or a falsy
looked-up rate returns the amount unchanged. -/
lemma convert_noop (rates : RateTable) (amount : ℚ)
    (fromCurrency toCurrency : String)
    (h : amount = 0 ∨ rateTruthy (lookupRate rates fromCurrency) = false
        ∨ rateTruthy (lookupRate rates toCurrency) = false) :
    convert rates amount fromCurrency toCurrency = amount := by
  unfold convert
  rcases h with h | h | h
  · simp [h]
  · by_cases hft : amount = 0 ∨ fromCurrency = toCurrency
    · simp [hft]
    · simp [hft, h]
  · by_cases hft : amount = 0 ∨ fromCurrency = toCurrency
    · simp [hft]
    · simp [hft, h]

/-- C5: whenever the amount is falsy (zero) or either currency's rate is
missing from the table or falsy, `convert` returns the amount unchanged
rather than failing. -/
theorem convert_lenient (rates : RateTable) (amount : ℚ)
    (fromCurrency toCurrency : String)
    (h : amount = 0 ∨ rateTruthy (lookupRate rates fromCurrency) = false
        ∨ rateTruthy (lookupRate rates toCurrency) = false) :
    convert rates amount fromCurrency toCurrency = amount :=
  convert_noop rates amount fromCurrency toCurrency h

/-- Witness for C5 at a concrete input: converting 7 from the unknown
currency "XYZ" with the fallback table returns 7 unchanged. -/
theorem convert_lenient_witness :
    convert fallbackRates 7 "XYZ" "USD" = 7 :=
  convert_lenient fallbackRates 7 "XYZ" "USD" (by decide)

/-- C4: for distinct currencies both present in the table with the
non-zero rates a rate table carries, and a non-falsy amount, `convert`
routes through the base unit: `amount / rates[from] * rates[to]`; in
particular, with the table `{USD: 1, GBP: 1.8}`,
`convert(10, "USD", "GBP") = 18` and `convert(18, "GBP", "USD") = 10`. -/
theorem convert_routes_through_base :
    (∀ (rates : RateTable) (amount : ℚ) (f t : String) (fr tr : ℚ),
        f ≠ t → amount ≠ 0 →
        lookupRate rates f = some fr → fr ≠ 0 →
        lookupRate rates t = some tr → tr ≠ 0 →
        convert rates amount f t = amount / fr * tr) ∧
    convert [("USD", 1), ("GBP", 9/5)] 10 "USD" "GBP" = 18 ∧
    convert [("USD", 1), ("GBP", 9/5)] 18 "GBP" "USD" = 10 := by
  refine ⟨fun rates amount f t fr tr hft ha hf hf0 ht ht0 =>
    convert_routed rates amount f t hft ha fr tr hf hf0 ht ht0, ?_, ?_⟩
  · simp +decide [convert, lookupRate, rateTruthy]
    norm_num
  · simp +decide [convert, lookupRate, rateTruthy]
    norm_num

/-- Witness for C4 at a concrete input: the general routing formula
applied to the spec's example table gives 18 and 10. -/
theorem convert_routes_through_base_witness :
    convert [("USD", 1), ("GBP", 9/5)] 10 "USD" "GBP" = 10 / 1 * (9/5) ∧
    convert [("USD", 1), ("GBP", 9/5)] 18 "GBP" "USD" = 18 / (9/5) * 1 :=
  ⟨convert_routes_through_base.1 [("USD", 1), ("GBP", 9/5)] 10 "USD" "GBP" 1 (9/5)
      (by decide) (by norm_num) (by simp +decide [lookupRate]) one_ne_zero
      (by simp +decide [lookupRate]) (by norm_num),
   convert_routes_through_base.1 [("USD", 1), ("GBP", 9/5)] 18 "GBP" "USD" (9/5) 1
      (by decide) (by norm_num) (by simp +decide [lookupRate]) (by norm_num)
      (by simp +decide [lookupRate]) one_ne_zero⟩

/-- C7: the round-trip law. With a non-zero amount and both rates present
and non-zero, converting A→B and then B→A returns the original amount
exactly (the embedding computes over exact rationals). -/
theorem convert_round_trip (rates : RateTable) (amount : ℚ) (A B : String)
    (ha : amount ≠ 0) (ra rb : ℚ)
    (hA : lookupRate rates A = some ra) (hA0 : ra ≠ 0)
    (hB : lookupRate rates B = some rb) (hB0 : rb ≠ 0) :
    convert rates (convert rates amount A B) B A = amount := by
  by_cases hAB : A = B
  · subst hAB
    rw [convert_same, convert_same]
  · have hinner : convert rates amount A B = amount / ra * rb :=
      convert_routed rates amount A B hAB ha ra rb hA hA0 hB hB0
    have hinner0 : amount / ra * rb ≠ 0 :=
      mul_ne_zero (div_ne_zero ha hA0) hB0
    rw [hinner,
      convert_routed rates (amount / ra * rb) B A (Ne.symm hAB) hinner0 rb ra hB hB0 hA hA0]
    field_simp
    ring

/-- Witness for C7 at a concrete input: 7 GBP converted to ILS and back
with the fallback table is again 7. -/
theorem convert_round_trip_witness :
    convert fallbackRates (convert fallbackRates 7 "GBP" "ILS") "ILS" "GBP" = 7 :=
  convert_round_trip fallbackRates 7 "GBP" "ILS" (by norm_num) (9/5) (17/5)
    (by simp +decide [lookupRate, fallbackRates]) (by norm_num)
    (by simp +decide [lookupRate, fallbackRates]) (by norm_num)

/-- Abbreviation for the record `addCost` builds from a present, valid
input and the current date (`costItem` in the source). -/
def stamped (now : DateParts) (s : ℚ) (c cat d : String) : CostRecord :=
  { sum := s
    currency := c
    category := cat
    description := d
    date := now
    year := now.year
    month := now.month
    day := now.day }

/-- C1 counterexample: the input `{sum: -5, currency: "USD",
category: "Food", description: "x"}` is NOT rejected — `-5` is truthy in
JavaScript, so the truthiness validation passes and the record is
persisted with `sum = -5`. -/
theorem addCost_negative_sum_counterexample :
    addCost ⟨2025, 1, 15⟩
        ⟨some (-5), some "USD", some "Food", some "x"⟩ [] =
      .ok ({ sum := -5, currency := "USD", category := "Food",
             description := "x" },
        [stamped ⟨2025, 1, 15⟩ (-5) "USD" "Food" "x"]) := by
  rfl

/-- C1 amended: for every input whose sum is a negative number and whose
other required fields are present and non-empty, `addCost` does not fail:
the truthiness validation accepts any non-zero sum, so the record is
persisted and its four user fields are returned.  A `ValidationError`
arises only when a required field is falsy (missing, zero sum, or empty
string). -/
theorem addCost_negative_sum_persisted
    (now : DateParts) (store : List CostRecord)
    (s : ℚ) (c cat d : String)
    (hs : s < 0) (hc : c ≠ "") (hcat : cat ≠ "") (hd : d ≠ "") :
    addCost now ⟨some s, some c, some cat, some d⟩ store =
      .ok ({ sum := s, currency := c, category := cat, description := d },
        store ++ [stamped now s c cat d]) := by
  have h1 : numTruthy (some s) = true := by simp [numTruthy, hs.ne]
  have h2 : strTruthy (some c) = true := by simp [strTruthy, hc]
  have h3 : strTruthy (some cat) = true := by simp [strTruthy, hcat]
  have h4 : strTruthy (some d) = true := by simp [strTruthy, hd]
  simp [addCost, h1, h2, h3, h4, stamped]

/-- Witness for the amended C1 at a concrete input: a record with
sum `-3` is accepted and persisted. -/
theorem addCost_negative_sum_persisted_witness :
    addCost ⟨2025, 3, 9⟩
        ⟨some (-3), some "ILS", some "Travel", some "bus"⟩ [] =
      .ok ({ sum := -3, currency := "ILS", category := "Travel",
             description := "bus" },
        [stamped ⟨2025, 3, 9⟩ (-3) "ILS" "Travel" "bus"]) :=
  addCost_negative_sum_persisted ⟨2025, 3, 9⟩ [] (-3) "ILS" "Travel" "bus"
    (by norm_num) (by decide) (by decide) (by decide)

/-- C2: for every valid input (positive sum, non-empty currency, category
and description), `addCost` succeeds, appending the stamped record, and
`getReport` for the stamped year/month with the record's own currency as
target includes the record with `convertedSum` equal to its `sum` —
whatever the current rate table is. -/
theorem addCost_getReport_round_trip
    (now : DateParts) (store : List CostRecord)
    (exchangeRates : Option RateTable)
    (s : ℚ) (c cat d : String)
    (hs : 0 < s) (hc : c ≠ "") (hcat : cat ≠ "") (hd : d ≠ "") :
    addCost now ⟨some s, some c, some cat, some d⟩ store =
      .ok ({ sum := s, currency := c, category := cat, description := d },
        store ++ [stamped now s c cat d]) ∧
    ({ sum := s, currency := c, category := cat, description := d,
       day := now.day, convertedSum := s } : DetailedCost) ∈
      (getReport exchangeRates (store ++ [stamped now s c cat d])
        now.year now.month c).costs := by
  constructor
  · have h1 : numTruthy (some s) = true := by simp [numTruthy, hs.ne']
    have h2 : strTruthy (some c) = true := by simp [strTruthy, hc]
    have h3 : strTruthy (some cat) = true := by simp [strTruthy, hcat]
    have h4 : strTruthy (some d) = true := by simp [strTruthy, hd]
    simp [addCost, h1, h2, h3, h4, stamped]
  · have hmem : stamped now s c cat d ∈
        (store ++ [stamped now s c cat d]).filter
          (fun cost => decide (cost.year = now.year ∧ cost.month = now.month)) := by
      rw [List.mem_filter]
      exact ⟨by simp, by simp [stamped]⟩
    have hm := List.mem_map_of_mem
      (detailOf (ratesOf exchangeRates) c) hmem
    simp only [getReport, detailOf, stamped] at hm
    simp only [getReport]
    rw [convert_same] at hm
    exact hm

/-- Witness for C2 at a concrete input: a 5 USD record added on
2025-01-15 appears in the January 2025 USD report with
`convertedSum = 5`. -/
theorem addCost_getReport_round_trip_witness :
    addCost ⟨2025, 1, 15⟩
        ⟨some 5, some "USD", some "Food", some "x"⟩ [] =
      .ok ({ sum := 5, currency := "USD", category := "Food",
             description := "x" },
        [stamped ⟨2025, 1, 15⟩ 5 "USD" "Food" "x"]) ∧
    ({ sum := 5, currency := "USD", category := "Food", description := "x",
       day := 15, convertedSum := 5 } : DetailedCost) ∈
      (getReport none [stamped ⟨2025, 1, 15⟩ 5 "USD" "Food" "x"]
        2025 1 "USD").costs :=
  addCost_getReport_round_trip ⟨2025, 1, 15⟩ [] none 5 "USD" "Food" "x"
    (by norm_num) (by decide) (by decide) (by decide)

/-- Helper: `x || 0` on a number is `x`. -/
lemma jsOr_zero (a : ℚ) : jsOr a 0 = a := by
  unfold jsOr
  split <;> simp_all

/-- Helper: the source's `reduce((sum, cost) => sum + (cost.convertedSum
|| 0), 0)` computes the plain sum of the `convertedSum` values. -/
lemma foldl_total (l : List DetailedCost) (init : ℚ) :
    l.foldl (fun sum cost => sum + jsOr cost.convertedSum 0) init
      = init + (l.map DetailedCost.convertedSum).sum := by
  induction l generalizing init with
  | nil => simp
  | cons hd tl ih =>
      rw [List.foldl_cons, ih, jsOr_zero, List.map_cons, List.sum_cons]
      ring

/-- C3: `getReport` reports the target currency in its total; its cost
list is exactly the annotation of the records whose derived year and
month equal the arguments; its total is the exact unrounded sum of the
`convertedSum` values; and a month with no matching record yields an
empty cost list and a total of 0. -/
theorem getReport_characterization
    (exchangeRates : Option RateTable) (store : List CostRecord)
    (year month : ℤ) (targetCurrency : String) :
    (getReport exchangeRates store year month targetCurrency).total.currency
        = targetCurrency ∧
    (getReport exchangeRates store year month targetCurrency).costs
      = (store.filter (fun r => decide (r.year = year ∧ r.month = month))).map
          (detailOf (ratesOf exchangeRates) targetCurrency) ∧
    (getReport exchangeRates store year month targetCurrency).total.total
      = ((getReport exchangeRates store year month targetCurrency).costs.map
          DetailedCost.convertedSum).sum ∧
    ((∀ r ∈ store, ¬(r.year = year ∧ r.month = month)) →
      (getReport exchangeRates store year month targetCurrency).costs = [] ∧
      (getReport exchangeRates store year month targetCurrency).total.total
        = 0) := by
  refine ⟨rfl, rfl, ?_, ?_⟩
  · show (List.foldl _ 0 _ : ℚ) = _
    rw [foldl_total]
    simp [getReport]
  · intro h
    have hfilter :
        store.filter (fun r => decide (r.year = year ∧ r.month = month))
          = [] := by
      rw [List.filter_eq_nil_iff]
      intro a ha
      simpa using h a ha
    constructor
    · show (store.filter
          (fun cost => decide (cost.year = year ∧ cost.month = month))).map
            (detailOf (ratesOf exchangeRates) targetCurrency) = []
      rw [hfilter]
      rfl
    · show ((store.filter
          (fun cost => decide (cost.year = year ∧ cost.month = month))).map
            (detailOf (ratesOf exchangeRates) targetCurrency)).foldl
          (fun sum cost => sum + jsOr cost.convertedSum 0) 0 = 0
      rw [hfilter]
      rfl

/-- Witness for C3 at a concrete input: a store holding one January 2025
record reported for February 2024 yields an empty list and a zero
total. -/
theorem getReport_characterization_witness :
    (getReport none [stamped ⟨2025, 1, 15⟩ 5 "USD" "Food" "x"]
        2024 2 "USD").costs = [] ∧
    (getReport none [stamped ⟨2025, 1, 15⟩ 5 "USD" "Food" "x"]
        2024 2 "USD").total.total = 0 :=
  (getReport_characterization none [stamped ⟨2025, 1, 15⟩ 5 "USD" "Food" "x"]
    2024 2 "USD").2.2.2 (by decide)

/-- C8: after `clearAll`, every `getReport` call — any year, month and
target currency, whatever was stored before — returns an empty cost list
and a total of 0. -/
theorem clearAll_getReport (store : List CostRecord)
    (exchangeRates : Option RateTable) (year month : ℤ) (currency : String) :
    (getReport exchangeRates (clearAll store) year month currency).costs
        = [] ∧
    (getReport exchangeRates (clearAll store) year month currency).total.total
        = 0 := by
  simp [clearAll, getReport]

/-- C9: `loadExchangeRates` is all-or-nothing.  A non-ok response or a
malformed JSON body rejects with `FetchError` and leaves the cached table
exactly as it was; a success replaces the whole table with the fetched
object.  A table that was never loaded (`none`) reads as the hard-coded
fallback, and a loaded table reads as itself. -/
theorem loadExchangeRates_all_or_nothing (current : Option RateTable) :
    (∀ outcome : FetchOutcome, outcome = .notOk ∨ outcome = .badJson →
        loadExchangeRates outcome current
          = (.error .FetchError, current)) ∧
    (∀ rates : RateTable,
        loadExchangeRates (.ok rates) current = (.ok rates, some rates)) ∧
    ratesOf none = fallbackRates ∧
    (∀ rates : RateTable, ratesOf (some rates) = rates) := by
  refine ⟨?_, fun rates => rfl, rfl, fun rates => rfl⟩
  intro outcome h
  rcases h with h | h <;> subst h <;> rfl

/-- Witness for C9 at a concrete input: a non-ok response leaves a
previously loaded one-entry table untouched. -/
theorem loadExchangeRates_all_or_nothing_witness :
    loadExchangeRates .notOk (some [("USD", 1)])
      = (.error .FetchError, some [("USD", 1)]) :=
  (loadExchangeRates_all_or_nothing (some [("USD", 1)])).1 .notOk (Or.inl rfl)

/-- C10: on the common domain — non-zero amount, both rates present and
non-zero, identical tables — `CurrencyService.convertCurrency` returns
exactly the store's `convert`; outside it they diverge: for distinct
currencies with a rate missing from the table, `convertCurrency`
divides or multiplies by the missing rate and yields a non-finite value
(`none`), while `convert` falls back to the unchanged amount. -/
theorem convertCurrency_matches_convert :
    (∀ (rates : RateTable) (amount : ℚ) (A B : String) (ra rb : ℚ),
        amount ≠ 0 →
        lookupRate rates A = some ra → ra ≠ 0 →
        lookupRate rates B = some rb → rb ≠ 0 →
        convertCurrency rates amount A B
          = some (convert rates amount A B)) ∧
    (∀ (rates : RateTable) (amount : ℚ) (A B : String),
        A ≠ B →
        lookupRate rates A = none ∨ lookupRate rates B = none →
        convertCurrency rates amount A B = none ∧
        convert rates amount A B = amount) := by
  constructor
  · intro rates amount A B ra rb ha hA hA0 hB hB0
    by_cases hAB : A = B
    · subst hAB
      rw [convert_same]
      simp [convertCurrency]
    · rw [convert_routed rates amount A B hAB ha ra rb hA hA0 hB hB0]
      simp [convertCurrency, hAB, hA, hB, hA0]
  · intro rates amount A B hAB h
    constructor
    · unfold convertCurrency
      rw [if_neg hAB]
      rcases h with h | h
      · simp [h]
      · rcases hA : lookupRate rates A with _ | ra <;> simp [hA, h]
    · rcases h with h | h
      · exact convert_noop rates amount A B
          (Or.inr (Or.inl (by simp [h, rateTruthy])))
      · exact convert_noop rates amount A B
          (Or.inr (Or.inr (by simp [h, rateTruthy])))

/-- Witness for C10 at a concrete input: on the fallback table the two
implementations agree on 10 USD → GBP. -/
theorem convertCurrency_matches_convert_witness :
    convertCurrency fallbackRates 10 "USD" "GBP"
      = some (convert fallbackRates 10 "USD" "GBP") :=
  convertCurrency_matches_convert.1 fallbackRates 10 "USD" "GBP" 1 (9/5)
    (by norm_num) (by simp +decide [lookupRate, fallbackRates]) one_ne_zero
    (by simp +decide [lookupRate, fallbackRates]) (by norm_num)

end Idb
